import Mathlib

/-!
Shallow embedding of the consensus-state core of the sawtooth-pbft node
(`src/node/state.rs` and `src/node/message_type.rs`), together with theorems
settling the specification claims about it.

Modelling conventions:
* Rust `u64` / `usize` values are modelled as `Nat`; none of the verified
  operations can overflow in range (lengths of actual lists, small divisions).
* `PeerId` (opaque bytes) is modelled as `List Nat`.
* The Rust `HashMap<u64, PeerId>` built in `PbftState::new` by `collect()` is
  modelled as an association list with `HashMap` insertion semantics
  (one entry per key, a later insert for the same key overwrites the earlier
  value).  Map indexing `map[&k]`, which panics on a missing key, is modelled
  by `List.lookup`, returning `none` exactly when the Rust code would panic.
* Functions that only emit a log line (`warn!`) additionally return a `Bool`
  flag recording whether the diagnostic was emitted; functions that can panic
  return `Option`.
-/

set_option autoImplicit false

/-- Opaque transport-level peer identifier (`PeerId`), arbitrary bytes. -/
abbrev PeerId := List Nat

/-- `PbftMessageType` from `src/node/message_type.rs`: the closed enumeration
of consensus message kinds, plus the `Unset` sentinel. -/
inductive PbftMessageType where
  | PrePrepare
  | Prepare
  | Commit
  | BlockNew
  | Checkpoint
  | ViewChange
  | Unset
deriving DecidableEq, Repr

/-- `PbftMessageType::is_multicast` from `src/node/message_type.rs`. -/
def PbftMessageType.is_multicast : PbftMessageType → Bool
  | .PrePrepare | .Prepare | .Commit => true
  | _ => false

/-- `impl From<&str> for PbftMessageType` from `src/node/message_type.rs`.
The second component records whether the `warn!` diagnostic in the wildcard
arm was emitted. -/
def PbftMessageType.fromStr (s : String) : PbftMessageType × Bool :=
  if s = "PrePrepare" then (.PrePrepare, false)
  else if s = "Prepare" then (.Prepare, false)
  else if s = "Commit" then (.Commit, false)
  else if s = "BlockNew" then (.BlockNew, false)
  else if s = "ViewChange" then (.ViewChange, false)
  else if s = "Checkpoint" then (.Checkpoint, false)
  else (.Unset, true)

/-- `impl From<&PbftMessageType> for String` from `src/node/message_type.rs`:
`format!("{:?}", mc_type)`.  The derived `Debug` rendering of a fieldless
enum variant is its variant name, embedded here as an explicit table. -/
def PbftMessageType.toString : PbftMessageType → String
  | .PrePrepare => "PrePrepare"
  | .Prepare => "Prepare"
  | .Commit => "Commit"
  | .BlockNew => "BlockNew"
  | .Checkpoint => "Checkpoint"
  | .ViewChange => "ViewChange"
  | .Unset => "Unset"

/-- `PbftPhase` from `src/node/state.rs`: stages of the PBFT algorithm. -/
inductive PbftPhase where
  | NotStarted
  | PrePreparing
  | Preparing
  | Checking
  | Committing
  | Finished
deriving DecidableEq, Repr

/-- `PbftNodeRole` from `src/node/state.rs`. -/
inductive PbftNodeRole where
  | Primary
  | Secondary
deriving DecidableEq, Repr

/-- `PbftMode` from `src/node/state.rs`. -/
inductive PbftMode where
  | Normal
  | ViewChanging
  | Checkpointing
deriving DecidableEq, Repr

/-- `WorkingBlockOption` from `src/node/state.rs`.  The full `PbftBlock`
protobuf carried by the `WorkingBlock` variant is represented by its block
id bytes (none of the verified operations inspect the block contents). -/
inductive WorkingBlockOption where
  | NoWorkingBlock
  | TentativeWorkingBlock (block_id : List Nat)
  | WorkingBlock (block : List Nat)
deriving DecidableEq, Repr

/-- `PbftConfig` as consumed by `PbftState::new`: the static peer list of
`(peer_id, node_id)` pairs and the view-change timeout duration
(`node/config.rs` is outside the instrumented sources; only the two fields
read by `new` are modelled). -/
structure PbftConfig where
  peers : List (PeerId × Nat)
  view_change_timeout : Nat
deriving DecidableEq, Repr

/-- `PbftState` from `src/node/state.rs`.  The `Timeout` value is modelled by
the duration it is constructed from (`Timeout::new(config.view_change_timeout)`);
no verified operation inspects it further. -/
structure PbftState where
  id : Nat
  seq_num : Nat
  view : Nat
  phase : PbftPhase
  role : PbftNodeRole
  mode : PbftMode
  pre_checkpoint_mode : PbftMode
  network_node_ids : List (Nat × PeerId)
  f : Nat
  timeout : Nat
  working_block : WorkingBlockOption
deriving DecidableEq, Repr

/-- `PbftError` from `node/error.rs` (outside the instrumented sources);
only the `NodeNotFound` variant is used by the verified code. -/
inductive PbftError where
  | NodeNotFound
deriving DecidableEq, Repr

/-- One `HashMap` insertion on the association-list model: overwrite the
entry for `k` if present, otherwise append a new entry. -/
def hmInsert (m : List (Nat × PeerId)) (k : Nat) (v : PeerId) : List (Nat × PeerId) :=
  if m.any (fun p => p.1 = k) then
    m.map (fun p => if p.1 = k then (k, v) else p)
  else
    m ++ [(k, v)]

/-- `collect()` of an iterator of key-value pairs into a `HashMap`, modelled
as repeated insertion (a later pair with the same key overwrites). -/
def hmCollect (l : List (Nat × PeerId)) : List (Nat × PeerId) :=
  l.foldl (fun m p => hmInsert m p.1 p.2) []

/-- The local `peer_id_map` binding of `PbftState::new`: the peer list with
each `(peer_id, node_id)` pair swapped, collected into a map keyed by node id. -/
def pbftPeerIdMap (config : PbftConfig) : List (Nat × PeerId) :=
  hmCollect (config.peers.map (fun pr => (pr.2, pr.1)))

/-- `PbftState::new` from `src/node/state.rs`.  Returns `none` when
`peer_id_map.len() - 1` underflows (empty peer map: the Rust `usize`
subtraction panics), otherwise the constructed state paired with a flag
recording whether the `warn!` for `f == 0` was emitted. -/
def PbftState.new (id : Nat) (config : PbftConfig) : Option (PbftState × Bool) :=
  if (pbftPeerIdMap config).length = 0 then
    none
  else
    some ({ id := id
            seq_num := 0
            view := 0
            phase := .NotStarted
            role := if id = 0 then .Primary else .Secondary
            mode := .Normal
            pre_checkpoint_mode := .Normal
            network_node_ids := pbftPeerIdMap config
            f := ((pbftPeerIdMap config).length - 1) / 3
            timeout := config.view_change_timeout
            working_block := .NoWorkingBlock },
          decide (((pbftPeerIdMap config).length - 1) / 3 = 0))

/-- `PbftState::check_msg_type` from `src/node/state.rs`. -/
def PbftState.check_msg_type (s : PbftState) : PbftMessageType :=
  match s.phase with
  | .PrePreparing => .PrePrepare
  | .Preparing => .Prepare
  | .Checking => .Prepare
  | .Committing => .Commit
  | _ => .Unset

/-- `PbftState::get_node_id_from_bytes` from `src/node/state.rs`: collect the
node ids of all map entries whose peer id matches, error if none match,
otherwise the first match. -/
def PbftState.get_node_id_from_bytes (s : PbftState) (peer_id : List Nat) :
    Except PbftError Nat :=
  match (s.network_node_ids.filter (fun p => p.2 = peer_id)).map Prod.fst with
  | [] => .error .NodeNotFound
  | n :: _ => .ok n

/-- `PbftState::get_own_peer_id` from `src/node/state.rs`:
`self.network_node_ids[&self.id]`; `none` models the panic on a missing key. -/
def PbftState.get_own_peer_id (s : PbftState) : Option PeerId :=
  s.network_node_ids.lookup s.id

/-- `PbftState::get_primary_peer_id` from `src/node/state.rs`:
`self.network_node_ids[&(view % len)]`; `none` models the panic on a missing
key (and the `%`-by-zero panic when the map is empty, since lookup in the
empty map is `none`). -/
def PbftState.get_primary_peer_id (s : PbftState) : Option PeerId :=
  s.network_node_ids.lookup (s.view % s.network_node_ids.length)

/-- `PbftState::is_primary` from `src/node/state.rs`. -/
def PbftState.is_primary (s : PbftState) : Bool :=
  s.role = .Primary

/-- `PbftState::switch_phase` from `src/node/state.rs`: the returned value and
the (possibly updated) state. -/
def PbftState.switch_phase (s : PbftState) (desired_phase : PbftPhase) :
    Option PbftPhase × PbftState :=
  let next : PbftPhase :=
    match s.phase with
    | .NotStarted => .PrePreparing
    | .PrePreparing => .Preparing
    | .Preparing => .Checking
    | .Checking => .Committing
    | .Committing => .Finished
    | .Finished => .NotStarted
  if desired_phase = next then
    (some desired_phase, { s with phase := desired_phase })
  else
    (none, s)

/-! ### Helper lemmas about the association-list map model -/

theorem lookup_isSome_iff (m : List (Nat × PeerId)) (k : Nat) :
    (m.lookup k).isSome = true ↔ k ∈ m.map Prod.fst := by
  induction m with
  | nil => simp [List.lookup]
  | cons hd tl ih =>
    by_cases h : k = hd.1
    · simp [List.lookup, h]
    · have hb : (k == hd.1) = false := by simp [h]
      simp [List.lookup, hb, ih, h]

theorem lookup_eq_none_of_not_mem (m : List (Nat × PeerId)) (k : Nat)
    (h : k ∉ m.map Prod.fst) : m.lookup k = none := by
  cases ho : m.lookup k with
  | none => rfl
  | some v => exact absurd ((lookup_isSome_iff m k).mp (by simp [ho])) h

theorem lookup_eq_some_of_mem (m : List (Nat × PeerId)) (k : Nat) (v : PeerId)
    (hkeys : (m.map Prod.fst).Nodup) (hmem : (k, v) ∈ m) :
    m.lookup k = some v := by
  induction m with
  | nil => cases hmem
  | cons hd tl ih =>
    simp only [List.map_cons, List.nodup_cons] at hkeys
    rcases List.mem_cons.mp hmem with heq | htl
    · subst heq
      simp [List.lookup]
    · have hne : k ≠ hd.1 := by
        intro hk
        exact hkeys.1 (hk ▸ List.mem_map.mpr ⟨(k, v), htl, rfl⟩)
      have hb : (k == hd.1) = false := by simp [hne]
      simp [List.lookup, hb, ih hkeys.2 htl]

theorem filter_snd_eq_nil (m : List (Nat × PeerId)) (v : PeerId)
    (h : v ∉ m.map Prod.snd) : m.filter (fun p => p.2 = v) = [] := by
  induction m with
  | nil => rfl
  | cons hd tl ih =>
    simp only [List.map_cons, List.mem_cons, not_or] at h
    have hne : ¬(hd.2 = v) := fun he => h.1 he.symm
    simp [List.filter_cons, hne, ih h.2]

theorem filter_snd_of_mem (m : List (Nat × PeerId)) (k : Nat) (v : PeerId)
    (hvals : (m.map Prod.snd).Nodup) (hmem : (k, v) ∈ m) :
    m.filter (fun p => p.2 = v) = [(k, v)] := by
  induction m with
  | nil => cases hmem
  | cons hd tl ih =>
    simp only [List.map_cons, List.nodup_cons] at hvals
    rcases List.mem_cons.mp hmem with heq | htl
    · subst heq
      simp [List.filter_cons, filter_snd_eq_nil tl v hvals.1]
    · have hv : v ∈ tl.map Prod.snd := List.mem_map.mpr ⟨(k, v), htl, rfl⟩
      have hne : ¬(hd.2 = v) := fun he => hvals.1 (he ▸ hv)
      simp [List.filter_cons, hne, ih hvals.2 htl]

theorem hmInsert_mem_keys (m : List (Nat × PeerId)) (k v : _) (k' : Nat) :
    k' ∈ (hmInsert m k v).map Prod.fst ↔ k' ∈ m.map Prod.fst ∨ k' = k := by
  unfold hmInsert
  by_cases h : m.any (fun p => decide (p.1 = k)) = true
  · have hk : k ∈ m.map Prod.fst := by
      rcases List.any_eq_true.mp h with ⟨p, hp, hpk⟩
      exact List.mem_map.mpr ⟨p, hp, of_decide_eq_true hpk⟩
    have hkeys : (m.map (fun p => if p.1 = k then (k, v) else p)).map Prod.fst
        = m.map Prod.fst := by
      rw [List.map_map]
      refine List.map_congr_left (fun p _ => ?_)
      by_cases hp : p.1 = k <;> simp [hp]
    rw [if_pos h, hkeys]
    constructor
    · exact Or.inl
    · rintro (hm | rfl)
      · exact hm
      · exact hk
  · rw [if_neg h]
    simp

theorem hmInsert_of_not_mem (m : List (Nat × PeerId)) (k v : _)
    (h : k ∉ m.map Prod.fst) : hmInsert m k v = m ++ [(k, v)] := by
  unfold hmInsert
  have hany : m.any (fun p => decide (p.1 = k)) = false := by
    rw [List.any_eq_false]
    intro p hp
    simp only [decide_eq_true_eq]
    intro hpk
    exact h (List.mem_map.mpr ⟨p, hp, hpk⟩)
  simp [hany]

theorem hmCollect_go_mem_keys (l : List (Nat × PeerId)) (acc : List (Nat × PeerId))
    (k : Nat) :
    k ∈ (l.foldl (fun m p => hmInsert m p.1 p.2) acc).map Prod.fst ↔
      k ∈ acc.map Prod.fst ∨ k ∈ l.map Prod.fst := by
  induction l generalizing acc with
  | nil => simp
  | cons hd tl ih =>
    rw [List.foldl_cons, ih, hmInsert_mem_keys]
    simp only [List.map_cons, List.mem_cons]
    tauto

theorem hmCollect_mem_keys (l : List (Nat × PeerId)) (k : Nat) :
    k ∈ (hmCollect l).map Prod.fst ↔ k ∈ l.map Prod.fst := by
  unfold hmCollect
  rw [hmCollect_go_mem_keys]
  simp

theorem hmCollect_go_of_disjoint (l : List (Nat × PeerId)) (acc : List (Nat × PeerId))
    (hl : (l.map Prod.fst).Nodup)
    (hdisj : ∀ p ∈ l, p.1 ∉ acc.map Prod.fst) :
    l.foldl (fun m p => hmInsert m p.1 p.2) acc = acc ++ l := by
  induction l generalizing acc with
  | nil => simp
  | cons hd tl ih =>
    simp only [List.map_cons, List.nodup_cons] at hl
    rw [List.foldl_cons, hmInsert_of_not_mem acc hd.1 hd.2 (hdisj hd (List.mem_cons_self hd tl))]
    rw [ih (acc ++ [hd]) hl.2]
    · simp
    · intro p hp
      simp only [List.map_append, List.mem_append, List.map_cons, List.map_nil,
        List.mem_singleton, not_or]
      refine ⟨hdisj p (List.mem_cons_of_mem hd hp), ?_⟩
      intro hpk
      exact hl.1 (hpk ▸ List.mem_map.mpr ⟨p, hp, rfl⟩)

theorem hmCollect_of_nodup_keys (l : List (Nat × PeerId))
    (hl : (l.map Prod.fst).Nodup) : hmCollect l = l := by
  unfold hmCollect
  rw [hmCollect_go_of_disjoint l [] hl (by simp)]
  simp

/-! ### Spec-side definitions and concrete fixtures -/

/-- The successor of each phase in the fixed cycle stated by the spec:
`NotStarted → PrePreparing → Preparing → Checking → Committing → Finished →
NotStarted`.  Written from the spec's words, to be compared with the cycle
computed inside `PbftState.switch_phase`. -/
def specPhaseSucc : PbftPhase → PbftPhase
  | .NotStarted => .PrePreparing
  | .PrePreparing => .Preparing
  | .Preparing => .Checking
  | .Checking => .Committing
  | .Committing => .Finished
  | .Finished => .NotStarted

/-- A concrete 4-node state (node 0, view 0, fresh round) used to instantiate
the universally quantified theorems below on explicit inputs. -/
def demoState : PbftState :=
  { id := 0
    seq_num := 0
    view := 0
    phase := .NotStarted
    role := .Primary
    mode := .Normal
    pre_checkpoint_mode := .Normal
    network_node_ids := [(0, [10]), (1, [11]), (2, [12]), (3, [13])]
    f := 1
    timeout := 4000
    working_block := .NoWorkingBlock }

/-! ### Claim theorems -/

/-- C1: `switch_phase(desired)` succeeds (returns `some desired` and sets the
stored phase to `desired`, leaving every other field unchanged) iff `desired`
is the unique successor of the current phase in the fixed cycle
`NotStarted → PrePreparing → Preparing → Checking → Committing → Finished →
NotStarted`; on any other requested phase it returns `none` and leaves the
whole state unchanged. -/
theorem switch_phase_cycle (s : PbftState) (d : PbftPhase) :
    (((s.switch_phase d).1 = some d ∧ (s.switch_phase d).2 = { s with phase := d }) ↔
      d = specPhaseSucc s.phase) ∧
    (d ≠ specPhaseSucc s.phase → s.switch_phase d = (none, s)) := by
  obtain ⟨i, sq, vw, ph, rl, md, pcm, nn, f, t, wb⟩ := s
  cases ph <;> cases d <;>
    simp [PbftState.switch_phase, specPhaseSucc]

/-- C1 witness: in the `NotStarted` demo state, switching to `PrePreparing`
succeeds and switching to `Committing` is rejected without mutation. -/
theorem switch_phase_cycle_witness :
    (demoState.switch_phase .PrePreparing).1 = some PbftPhase.PrePreparing ∧
    demoState.switch_phase .Committing = (none, demoState) :=
  ⟨((switch_phase_cycle demoState .PrePreparing).1.mpr (by decide)).1,
   (switch_phase_cycle demoState .Committing).2 (by decide)⟩

/-- C2: `check_msg_type()` maps `PrePreparing` to `PrePrepare`, `Preparing`
and `Checking` to `Prepare`, `Committing` to `Commit`, and `NotStarted` and
`Finished` to `Unset`. -/
theorem check_msg_type_by_phase (s : PbftState) :
    (s.phase = .PrePreparing → s.check_msg_type = .PrePrepare) ∧
    (s.phase = .Preparing → s.check_msg_type = .Prepare) ∧
    (s.phase = .Checking → s.check_msg_type = .Prepare) ∧
    (s.phase = .Committing → s.check_msg_type = .Commit) ∧
    (s.phase = .NotStarted ∨ s.phase = .Finished → s.check_msg_type = .Unset) := by
  obtain ⟨i, sq, vw, ph, rl, md, pcm, nn, f, t, wb⟩ := s
  cases ph <;> simp [PbftState.check_msg_type]

/-- C2 witness: the demo state is in phase `NotStarted` and expects no
message (`Unset`). -/
theorem check_msg_type_by_phase_witness :
    demoState.check_msg_type = PbftMessageType.Unset :=
  (check_msg_type_by_phase demoState).2.2.2.2 (Or.inl (by decide))

/-- C5: `is_multicast(k)` is true iff `k` is `PrePrepare`, `Prepare` or
`Commit`, and false for `BlockNew`, `Checkpoint`, `ViewChange` and `Unset`. -/
theorem is_multicast_iff (k : PbftMessageType) :
    (k.is_multicast = true ↔ (k = .PrePrepare ∨ k = .Prepare ∨ k = .Commit)) ∧
    (k = .BlockNew ∨ k = .Checkpoint ∨ k = .ViewChange ∨ k = .Unset →
      k.is_multicast = false) := by
  cases k <;> simp [PbftMessageType.is_multicast]

/-- C5 witness: `Unset` is not multicast (and `Commit` is, via the iff). -/
theorem is_multicast_iff_witness :
    PbftMessageType.Unset.is_multicast = false ∧
    PbftMessageType.Commit.is_multicast = true :=
  ⟨(is_multicast_iff .Unset).2 (by decide),
   (is_multicast_iff .Commit).1.mpr (by decide)⟩

/-- C4: decoding a message-kind label maps each of the six known labels to
the corresponding kind without a diagnostic, and maps every other string to
the `Unset` sentinel with a diagnostic, always returning a value (the
function is total, so decoding never fails or crashes). -/
theorem fromStr_classification :
    PbftMessageType.fromStr "PrePrepare" = (.PrePrepare, false) ∧
    PbftMessageType.fromStr "Prepare" = (.Prepare, false) ∧
    PbftMessageType.fromStr "Commit" = (.Commit, false) ∧
    PbftMessageType.fromStr "BlockNew" = (.BlockNew, false) ∧
    PbftMessageType.fromStr "ViewChange" = (.ViewChange, false) ∧
    PbftMessageType.fromStr "Checkpoint" = (.Checkpoint, false) ∧
    ∀ s : String,
      s ∉ (["PrePrepare", "Prepare", "Commit", "BlockNew", "ViewChange",
            "Checkpoint"] : List String) →
      PbftMessageType.fromStr s = (.Unset, true) := by
  refine ⟨by decide, by decide, by decide, by decide, by decide, by decide, ?_⟩
  intro s hs
  simp only [List.mem_cons, List.not_mem_nil, or_false, not_or] at hs
  obtain ⟨h1, h2, h3, h4, h5, h6⟩ := hs
  simp [PbftMessageType.fromStr, h1, h2, h3, h4, h5, h6]

/-- C4 witness: the unknown label `"Flibbertigibbet"` decodes to `Unset`
with a diagnostic. -/
theorem fromStr_classification_witness :
    PbftMessageType.fromStr "Flibbertigibbet" = (.Unset, true) :=
  fromStr_classification.2.2.2.2.2.2 "Flibbertigibbet" (by decide)

/-- C9: rendering any of the seven message kinds to its textual form (the
variant's debug name) and decoding it back yields the same kind: a full
decode-after-encode round trip, including the `Unset` sentinel (whose label
is not matched explicitly and flows through the wildcard arm back to
`Unset`). -/
theorem msg_type_string_round_trip (k : PbftMessageType) :
    (PbftMessageType.fromStr k.toString).1 = k := by
  cases k <;> decide

/-- C3: with `n ≥ 1` distinct configured node ids, construction computes the
fault bound `f = (n - 1) / 3` (so `f = 1` for `n = 4` and `f = 0` for
`n ≤ 3`), and when `f = 0` construction still succeeds, emitting the warning
instead of rejecting the configuration. -/
theorem new_fault_bound (id : Nat) (config : PbftConfig)
    (hnodup : (config.peers.map Prod.snd).Nodup)
    (hlen1 : 1 ≤ config.peers.length) :
    ∃ s w, PbftState.new id config = some (s, w) ∧
      s.f = (config.peers.length - 1) / 3 ∧
      (config.peers.length = 4 → s.f = 1) ∧
      (config.peers.length ≤ 3 → s.f = 0) ∧
      (s.f = 0 → w = true) := by
  have hkeys : ((config.peers.map (fun pr => (pr.2, pr.1))).map Prod.fst).Nodup := by
    rw [List.map_map]
    exact hnodup
  have hlen : (pbftPeerIdMap config).length = config.peers.length := by
    unfold pbftPeerIdMap
    rw [hmCollect_of_nodup_keys _ hkeys, List.length_map]
  unfold PbftState.new
  rw [if_neg (by omega)]
  refine ⟨_, _, rfl, ?_, ?_, ?_, ?_⟩
  · show ((pbftPeerIdMap config).length - 1) / 3 = (config.peers.length - 1) / 3
    rw [hlen]
  · intro h4
    show ((pbftPeerIdMap config).length - 1) / 3 = 1
    rw [hlen, h4]
  · intro h3
    show ((pbftPeerIdMap config).length - 1) / 3 = 0
    rw [hlen]
    omega
  · intro hf
    rw [decide_eq_true_eq]
    exact hf

/-- C3 witness: a four-member configuration with distinct node ids yields a
state with fault bound `f = 1`. -/
theorem new_fault_bound_witness :
    ∃ s w, PbftState.new 0
        { peers := [([10], 0), ([11], 1), ([12], 2), ([13], 3)],
          view_change_timeout := 4000 } = some (s, w) ∧
      s.f = (4 - 1) / 3 ∧ (4 = 4 → s.f = 1) ∧ (4 ≤ 3 → s.f = 0) ∧
      (s.f = 0 → w = true) :=
  new_fault_bound 0
    { peers := [([10], 0), ([11], 1), ([12], 2), ([13], 3)],
      view_change_timeout := 4000 } (by decide) (by decide)

/-- C6: assuming the configured node-id/peer-id mapping is bijective (distinct
node ids and distinct peer ids), `get_node_id_from_bytes` round-trips: looking
up any configured peer id returns its node id (`ok`), and looking up any byte
string matching no configured peer id returns the `NodeNotFound` error, never
a default node id. -/
theorem get_node_id_from_bytes_round_trip (s : PbftState)
    (_hkeys : (s.network_node_ids.map Prod.fst).Nodup)
    (hvals : (s.network_node_ids.map Prod.snd).Nodup) :
    (∀ k v, (k, v) ∈ s.network_node_ids →
      s.get_node_id_from_bytes v = .ok k) ∧
    (∀ v, v ∉ s.network_node_ids.map Prod.snd →
      s.get_node_id_from_bytes v = .error .NodeNotFound) := by
  constructor
  · intro k v hmem
    unfold PbftState.get_node_id_from_bytes
    rw [filter_snd_of_mem s.network_node_ids k v hvals hmem]
    rfl
  · intro v hv
    unfold PbftState.get_node_id_from_bytes
    rw [filter_snd_eq_nil s.network_node_ids v hv]
    rfl

/-- C6 witness: in the demo state, peer id `[12]` resolves to node 2 and the
unconfigured byte string `[99]` yields `NodeNotFound`. -/
theorem get_node_id_from_bytes_round_trip_witness :
    demoState.get_node_id_from_bytes [12] = .ok 2 ∧
    demoState.get_node_id_from_bytes [99] = .error .NodeNotFound :=
  ⟨(get_node_id_from_bytes_round_trip demoState (by decide) (by decide)).1
      2 [12] (by decide),
   (get_node_id_from_bytes_round_trip demoState (by decide) (by decide)).2
      [99] (by decide)⟩

/-- C7: when the membership map (with its distinct node-id keys) associates
node id `view mod n` with peer id `p`, `get_primary_peer_id()` returns `p`. -/
theorem get_primary_peer_id_spec (s : PbftState) (p : PeerId)
    (hkeys : (s.network_node_ids.map Prod.fst).Nodup)
    (hmem : (s.view % s.network_node_ids.length, p) ∈ s.network_node_ids) :
    s.get_primary_peer_id = some p := by
  unfold PbftState.get_primary_peer_id
  exact lookup_eq_some_of_mem _ _ _ hkeys hmem

/-- C7 witness: in the demo state (view 0, four members), the primary peer id
is the one mapped to node id 0. -/
theorem get_primary_peer_id_spec_witness :
    demoState.get_primary_peer_id = some [10] :=
  get_primary_peer_id_spec demoState [10] (by decide) (by decide)

/-- A one-member configuration whose single node id is 1, so that the local
node id 0 is absent from membership. -/
def absentIdConfig : PbftConfig :=
  { peers := [([7], 1)], view_change_timeout := 4000 }

/-- C8 counterexample: constructing the state for local id 0 over a
configuration that does not contain node id 0 succeeds — `new` performs no
membership validation, so it does not fail fatally at construction time. -/
theorem new_absent_id_counterexample :
    (PbftState.new 0 absentIdConfig).isSome = true := by decide

/-- C8 (amended): for any configuration with a nonempty peer list, `new`
succeeds even when the local node id is absent from the configured node ids;
the misconfiguration surfaces only on the later `get_own_peer_id` lookup,
which then finds no entry (the modelled panic). -/
theorem new_absent_id_defers_failure (id : Nat) (config : PbftConfig)
    (hne : config.peers ≠ []) :
    ∃ s w, PbftState.new id config = some (s, w) ∧
      (id ∉ config.peers.map Prod.snd → s.get_own_peer_id = none) := by
  have hkeysiff : ∀ k, k ∈ (pbftPeerIdMap config).map Prod.fst ↔
      k ∈ config.peers.map Prod.snd := by
    intro k
    unfold pbftPeerIdMap
    rw [hmCollect_mem_keys, List.map_map]
    exact Iff.rfl
  obtain ⟨hd, tl, hpeers⟩ := List.exists_cons_of_ne_nil hne
  have hlen : (pbftPeerIdMap config).length ≠ 0 := by
    have hmem : hd.2 ∈ (pbftPeerIdMap config).map Prod.fst :=
      (hkeysiff hd.2).mpr (by rw [hpeers]; simp)
    intro h0
    rw [List.length_eq_zero] at h0
    rw [h0] at hmem
    simp at hmem
  unfold PbftState.new
  rw [if_neg hlen]
  refine ⟨_, _, rfl, ?_⟩
  intro hid
  show (pbftPeerIdMap config).lookup id = none
  exact lookup_eq_none_of_not_mem _ _ (fun hk => hid ((hkeysiff id).mp hk))

/-- C8 witness for the amended claim: instantiated at local id 0 and the
one-member configuration holding only node id 1. -/
theorem new_absent_id_defers_failure_witness :
    ∃ s w, PbftState.new 0 absentIdConfig = some (s, w) ∧
      (0 ∉ absentIdConfig.peers.map Prod.snd → s.get_own_peer_id = none) :=
  new_absent_id_defers_failure 0 absentIdConfig (by decide)

/-- C10: `get_own_peer_id` evaluates without the modelled panic exactly when
the node's own id is a key of the membership map, and `get_primary_peer_id`
exactly when `view mod n` is a key; under the precondition that the keys are
exactly `0..n-1` and include the local id, both failure branches are
unreachable. -/
theorem peer_id_indexing_safety (s : PbftState) :
    (s.get_own_peer_id.isSome = true ↔
      s.id ∈ s.network_node_ids.map Prod.fst) ∧
    (s.get_primary_peer_id.isSome = true ↔
      s.view % s.network_node_ids.length ∈ s.network_node_ids.map Prod.fst) ∧
    ((∀ k, k ∈ s.network_node_ids.map Prod.fst ↔
        k < s.network_node_ids.length) →
      s.id ∈ s.network_node_ids.map Prod.fst →
      s.get_own_peer_id.isSome = true ∧ s.get_primary_peer_id.isSome = true) := by
  refine ⟨lookup_isSome_iff _ _, lookup_isSome_iff _ _, ?_⟩
  intro hrange hid
  refine ⟨(lookup_isSome_iff _ _).mpr hid, (lookup_isSome_iff _ _).mpr ?_⟩
  have hn : 0 < s.network_node_ids.length := by
    have := (hrange s.id).mp hid
    omega
  exact (hrange _).mpr (Nat.mod_lt _ hn)

/-- C10 witness: in the demo state (keys exactly 0..3, own id 0 present)
both lookups succeed. -/
theorem peer_id_indexing_safety_witness :
    demoState.get_own_peer_id.isSome = true ∧
    demoState.get_primary_peer_id.isSome = true :=
  (peer_id_indexing_safety demoState).2.2
    (by
      intro k
      show k ∈ [(0, [10]), (1, [11]), (2, [12]), (3, [13])].map Prod.fst ↔
        k < [(0, [10]), (1, [11]), (2, [12]), (3, [13])].length
      simp only [List.map_cons, List.map_nil, List.mem_cons, List.not_mem_nil,
        or_false, List.length_cons, List.length_nil]
      omega)
    (by decide)
